import Mathlib

/-! Verification development for the StellarRec candidate-ranking engine
(`university_matcher.py`) and scoring-resource manager (`model_manager.py`).
The Python code is shallowly embedded: floats become rationals, Python dict
fields that can be absent become `Option`, and `dict.get(key, default)`
becomes `Option.getD` at the use site. Truthiness tests of the source
(`if student_profile.get(...)`) are modelled explicitly where the source
performs them. -/

namespace StellarRec

/-- Substring test on character lists: `containsSub hay needle` is true when
`needle` occurs contiguously inside `hay`. Models the Python expression
`needle in hay` on strings. -/
def containsSub (hay needle : List Char) : Bool :=
  (List.range (hay.length + 1)).any (fun i => needle.isPrefixOf (hay.drop i))

/-- Lowercasing on character lists, modelling the Python `str.lower()`
calls; `String.toLower` is definitionally `map Char.toLower` over the
characters, written here on `List Char` directly. -/
def lowerChars (l : List Char) : List Char := l.map Char.toLower

/-- Location record of a candidate university; absent fields behave as the
empty string, exactly like `location.get("city", "")` in the source. -/
structure Location where
  city : String
  state : String
  country : String
deriving DecidableEq, Repr

/-- One program offered by a university (`programs` entries in the source). -/
structure Program where
  name : String
  degree : String
  department : String
deriving DecidableEq, Repr

/-- Per-test requirement entry, e.g. `test_requirements["SAT"]`; the `min`
field defaults at use sites (1200 for SAT, 300 for GRE). -/
structure TestReqEntry where
  min : Option ℚ
deriving DecidableEq, Repr

/-- Per-test student score entry, e.g. `student_test_scores["SAT"]`; the
`total` field defaults at use sites (1200 for SAT, 300 for GRE). -/
structure TestScoreEntry where
  total : Option ℚ
deriving DecidableEq, Repr

/-- Test requirements of a university (`admission_requirements["testScores"]`);
only the SAT and GRE keys are consulted by the source. -/
structure TestRequirements where
  sat : Option TestReqEntry
  gre : Option TestReqEntry
deriving DecidableEq, Repr

/-- Test scores of a student (`student_profile["test_scores"]`); only the SAT
and GRE keys are consulted by the source. -/
structure StudentTestScores where
  sat : Option TestScoreEntry
  gre : Option TestScoreEntry
deriving DecidableEq, Repr

/-- Admission requirements of a university; `minGPA` defaults to 3.0 and
`testScores` to the empty dict at use sites, as in the source. -/
structure AdmissionRequirements where
  minGPA : Option ℚ
  testScores : Option TestRequirements
deriving DecidableEq, Repr

/-- Metadata block of a university; defaults at use sites are 0.5 for
`acceptance_rate`, 50000 for `tuition` and 10000 for `student_count`. -/
structure Metadata where
  acceptance_rate : Option ℚ
  tuition : Option ℚ
  student_count : Option ℚ
deriving DecidableEq, Repr

/-- Candidate university record. `none` in an `Option` field models the key
being absent from the Python dict (or, for `testScores`, present but empty:
both are falsy and are read through `.get` with a default). -/
structure University where
  id : String
  name : String
  location : Location
  ranking : Option ℚ
  admission_requirements : Option AdmissionRequirements
  programs : List Program
  metadata : Option Metadata
deriving DecidableEq, Repr

/-- Financial constraints of a student; `max_annual_cost` defaults to 100000
at the use site. -/
structure FinancialConstraints where
  max_annual_cost : Option ℚ
deriving DecidableEq, Repr

/-- Student profile as consumed by the matcher. List fields model Python
lists (absent key behaves as the empty list under truthiness and iteration);
`Option` fields model possibly-absent dict entries. -/
structure StudentProfile where
  gpa : Option ℚ
  test_scores : Option StudentTestScores
  academic_interests : List String
  target_programs : List String
  location_preferences : List String
  financial_constraints : Option FinancialConstraints
  extracurriculars : List String
deriving DecidableEq, Repr

/-- Tuition of a university: `university.get("metadata", {}).get("tuition", 50000)`. -/
def tuitionOf (u : University) : ℚ := (u.metadata.bind Metadata.tuition).getD 50000

/-- Student count of a university:
`university.get("metadata", {}).get("student_count", 10000)`. -/
def studentCountOf (u : University) : ℚ := (u.metadata.bind Metadata.student_count).getD 10000

/-- Acceptance rate of a university:
`university.get("metadata", {}).get("acceptance_rate", 0.5)`. -/
def acceptanceRateOf (u : University) : ℚ := (u.metadata.bind Metadata.acceptance_rate).getD (1/2)

/-- Feature weights dict of `UniversityMatcher.__init__`. -/
def featureWeights : List (String × ℚ) :=
  [("academic_fit", 35/100), ("interest_alignment", 25/100), ("location_preference", 15/100),
   ("financial_fit", 15/100), ("cultural_fit", 10/100)]

/-- Weight lookup in `featureWeights` (every key used by the source is present). -/
def weightOf (k : String) : ℚ := (featureWeights.lookup k).getD 0

/-- GPA sub-score of `_calculate_academic_fit` (lines 194-201): capped ratio
when the student meets the minimum, halved ratio otherwise. -/
def gpaSubScore (studentGpa minGpa : ℚ) : ℚ :=
  if studentGpa ≥ minGpa then min 1 (studentGpa / minGpa) else studentGpa / minGpa * (1/2)

/-- Per-test score of `_calculate_academic_fit` (lines 214 and 222):
`min(1, student/minimum)` guarded by `minimum > 0`, else 0.8. -/
def testEntryScore (studentTotal minReq : ℚ) : ℚ :=
  if minReq > 0 then min 1 (studentTotal / minReq) else 8/10

/-- SAT comparison entry of `_calculate_academic_fit` (lines 211-216):
present exactly when both the student scores and the requirements carry an
SAT entry. -/
def satTestPart (sts : StudentTestScores) (tr : TestRequirements) : Option ℚ :=
  match sts.sat, tr.sat with
  | some s, some r => some (testEntryScore (s.total.getD 1200) (r.min.getD 1200))
  | _, _ => none

/-- GRE comparison entry of `_calculate_academic_fit` (lines 219-224). -/
def greTestPart (sts : StudentTestScores) (tr : TestRequirements) : Option ℚ :=
  match sts.gre, tr.gre with
  | some s, some r => some (testEntryScore (s.total.getD 300) (r.min.getD 300))
  | _, _ => none

/-- Academic fit of one university (`_calculate_academic_fit` loop body,
lines 186-232). The SAT/GRE block only runs when both the student test-score
dict and the requirement dict are truthy; each present pair adds one entry. -/
def academicFitOne (p : StudentProfile) (u : University) : ℚ :=
  let studentGpa := p.gpa.getD 3
  let minGpa := (u.admission_requirements.bind AdmissionRequirements.minGPA).getD 3
  let score1 := gpaSubScore studentGpa minGpa * (6/10)
  let factors1 : ℚ := 6/10
  let sf :=
    match p.test_scores, u.admission_requirements.bind AdmissionRequirements.testScores with
    | some sts, some tr =>
      let parts := [satTestPart sts tr, greTestPart sts tr].reduceOption
      if 0 < parts.length then
        (score1 + parts.sum / parts.length * (4/10), factors1 + 4/10)
      else (score1, factors1)
    | _, _ => (score1, factors1)
  if 0 < sf.2 then sf.1 / sf.2 else 1/2

/-- Interest alignment of one university (`_calculate_interest_alignment`).
The source hoists the empty-interest early return out of the loop; pushing it
inside the per-university function is extensionally identical. -/
def interestAlignmentOne (p : StudentProfile) (u : University) : ℚ :=
  if p.academic_interests.isEmpty && p.target_programs.isEmpty then 1/2
  else
    let score :=
      if u.programs.isEmpty then (3/10 : ℚ)
      else
        let uniText := lowerChars (String.intercalate " "
          (u.programs.map Program.name ++ u.programs.map Program.department)).data
        let allTerms := p.academic_interests ++ p.target_programs
        let matchCount := (allTerms.filter (fun t => containsSub uniText (lowerChars t.data))).length
        if 0 < allTerms.length then (matchCount : ℚ) / allTerms.length else 1/2
    min 1 score

/-- Predicate for the 1.0 branch of `_calculate_location_preference` (lines
293-300): some preference is a case-insensitive substring of the candidate
city, state or country. -/
def locPrefExactMatch (p : StudentProfile) (u : University) : Bool :=
  p.location_preferences.any (fun pref =>
    containsSub (lowerChars u.location.city.data) (lowerChars pref.data) ||
    containsSub (lowerChars u.location.state.data) (lowerChars pref.data) ||
    containsSub (lowerChars u.location.country.data) (lowerChars pref.data))

/-- Predicate for the 0.6 branch of `_calculate_location_preference` (lines
303-308): the broad country-level region recognised by the source. A
preference names the region when it contains "usa" or "united states"
case-insensitively, and it must match the candidate country, which the
source compares (lowercased) against the literal "usa". -/
def locPrefBroadRegionMatch (p : StudentProfile) (u : University) : Bool :=
  p.location_preferences.any (fun pref =>
    containsSub (lowerChars pref.data) "usa".data ||
    containsSub (lowerChars pref.data) "united states".data) &&
  (lowerChars u.location.country.data == "usa".data)

/-- Location preference of one university (`_calculate_location_preference`).
The neutral 0.7 early return is hoisted in the source; here it is the first
branch of the per-university function. -/
def locationPreferenceOne (p : StudentProfile) (u : University) : ℚ :=
  if p.location_preferences.isEmpty then 7/10
  else
    let score1 : ℚ := if locPrefExactMatch p u then 1 else 0
    let score2 : ℚ :=
      if score1 = 0 then (if locPrefBroadRegionMatch p u then 3/5 else 0) else score1
    if 0 < score2 then score2 else 3/10

/-- Financial fit of one university (`_calculate_financial_fit`). The neutral
0.7 early return for absent or empty constraints is the first branch. -/
def financialFitOne (p : StudentProfile) (u : University) : ℚ :=
  match p.financial_constraints with
  | none => 7/10
  | some fc =>
    let maxBudget := fc.max_annual_cost.getD 100000
    let tuition := tuitionOf u
    let score :=
      if tuition ≤ maxBudget then 1 - tuition / maxBudget * (3/10)
      else max (1/10) (maxBudget / tuition)
    min 1 score

/-- Cultural fit of one university (`_calculate_cultural_fit`): size buckets
0.8 / 0.9 / 0.7. The student profile argument of the source is unused. -/
def culturalFitOne (u : University) : ℚ :=
  let sc := studentCountOf u
  if sc < 5000 then 8/10 else if sc < 20000 then 9/10 else 7/10

/-- List version of academic fit over the whole catalog (`_calculate_academic_fit`). -/
def calculateAcademicFit (p : StudentProfile) (unis : List University) : List ℚ :=
  unis.map (academicFitOne p)

/-- List version of interest alignment over the whole catalog. -/
def calculateInterestAlignment (p : StudentProfile) (unis : List University) : List ℚ :=
  unis.map (interestAlignmentOne p)

/-- List version of location preference over the whole catalog. -/
def calculateLocationPreference (p : StudentProfile) (unis : List University) : List ℚ :=
  unis.map (locationPreferenceOne p)

/-- List version of financial fit over the whole catalog. -/
def calculateFinancialFit (p : StudentProfile) (unis : List University) : List ℚ :=
  unis.map (financialFitOne p)

/-- List version of cultural fit over the whole catalog. -/
def calculateCulturalFit (_p : StudentProfile) (unis : List University) : List ℚ :=
  unis.map (fun u => culturalFitOne u)

/-- Python truthiness of `student_profile.get("gpa")`: false when the key is
absent or when the value is the falsy number 0. -/
def truthyGpa (p : StudentProfile) : Bool :=
  match p.gpa with
  | some g => g != 0
  | none => false

/-- Population variance as computed by `np.var` (mean of squared deviations). -/
def npVar (xs : List ℚ) : ℚ :=
  if xs.length = 0 then 0
  else
    let m := xs.sum / xs.length
    (xs.map (fun x => (x - m) ^ 2)).sum / xs.length

/-- Confidence of a match (`_calculate_confidence`): data-completeness terms,
a consistency factor from the variance of the five component scores, capped
at 1. -/
def calculateConfidence (p : StudentProfile) (u : University)
    (componentScores : List ℚ) : ℚ :=
  let studentCompleteness :=
    (if truthyGpa p then (3/10 : ℚ) else 0) +
    (if p.test_scores.isSome then 3/10 else 0) +
    (if !p.academic_interests.isEmpty then 1/5 else 0) +
    (if !p.extracurriculars.isEmpty then 1/5 else 0)
  let uniCompleteness :=
    (if u.admission_requirements.isSome then (2/5 : ℚ) else 0) +
    (if !u.programs.isEmpty then 3/10 else 0) +
    (if u.metadata.isSome then 3/10 else 0)
  let consistencyFactor := max (1/2) (1 - npVar componentScores)
  min 1 ((studentCompleteness + uniCompleteness) / 2 * consistencyFactor)

/-- Category of a match (`_determine_category`): thresholds on the blended
match score and the acceptance rate. -/
def determineCategory (u : University) (matchScore : ℚ) : String :=
  let acceptanceRate := acceptanceRateOf u
  if matchScore ≥ 8/10 ∧ acceptanceRate ≥ 3/10 then "safety"
  else if matchScore ≥ 3/5 ∧ acceptanceRate ≥ 15/100 then "target"
  else "reach"

/-- Reasoning strings of `_generate_reasoning`; the texts are abbreviated but
the tier structure (at least 0.8 / at least 0.6 / below) is exact. -/
def generateReasoning (academic interest location financial : ℚ) :
    List (String × String) :=
  [("academic_fit",
     if academic ≥ 8/10 then "credentials align well"
     else if academic ≥ 3/5 then "meets the basic requirements"
     else "below the typical admitted profile"),
   ("program_alignment",
     if interest ≥ 8/10 then "strong alignment with available programs"
     else if interest ≥ 3/5 then "good match with several programs"
     else "limited alignment with stated interests"),
   ("location_preference",
     if location ≥ 8/10 then "located in preferred area"
     else if location ≥ 3/5 then "reasonable location match"
     else "not in preferred location"),
   ("financial_fit",
     if financial ≥ 8/10 then "well within budget constraints"
     else if financial ≥ 3/5 then "manageable cost with potential aid"
     else "may require significant financial aid")]

/-- Estimated cost of attendance (`_estimate_cost`). -/
structure EstimatedCost where
  tuition : ℚ
  room_board : ℚ
  books_supplies : ℚ
  personal_expenses : ℚ
  total_cost : ℚ
  estimated_aid : ℚ
  net_cost : ℚ
deriving DecidableEq, Repr

/-- Cost estimate of `_estimate_cost`: room and board is 30 percent of
tuition, fixed books and personal costs, merit aid tiers at GPA 3.8 and 3.5. -/
def estimateCost (u : University) (p : StudentProfile) : EstimatedCost :=
  let baseTuition := tuitionOf u
  let roomBoard := baseTuition * (3/10)
  let totalCost := baseTuition + roomBoard + 2000 + 3000
  let studentGpa := p.gpa.getD 3
  let estimatedAid :=
    if studentGpa ≥ 38/10 then totalCost * (3/10)
    else if studentGpa ≥ 35/10 then totalCost * (1/5)
    else 0
  { tuition := baseTuition, room_board := roomBoard, books_supplies := 2000,
    personal_expenses := 3000, total_cost := totalCost,
    estimated_aid := estimatedAid, net_cost := max 0 (totalCost - estimatedAid) }

/-- Match record built by `find_matches` for one university (lines 153-170).
The `factors` entries carry (name, score times 100, weight). -/
structure MatchResult where
  university_id : String
  university_name : String
  match_percentage : ℚ
  confidence : ℚ
  category : String
  reasoning : List (String × String)
  factors : List (String × ℚ × ℚ)
  programs : List Program
  estimated_cost : EstimatedCost
deriving DecidableEq, Repr

/-- Match record of one university inside the `find_matches` loop: weighted
combination of the five factor scores, clamped percentage and confidence. -/
def buildMatchOne (p : StudentProfile) (u : University) : MatchResult :=
  let a := academicFitOne p u
  let it := interestAlignmentOne p u
  let lo := locationPreferenceOne p u
  let fi := financialFitOne p u
  let cu := culturalFitOne u
  let weightedScore :=
    a * weightOf "academic_fit" + it * weightOf "interest_alignment" +
    lo * weightOf "location_preference" + fi * weightOf "financial_fit" +
    cu * weightOf "cultural_fit"
  let conf := calculateConfidence p u [a, it, lo, fi, cu]
  { university_id := u.id
    university_name := u.name
    match_percentage := min 100 (max 0 (weightedScore * 100))
    confidence := min 100 (max 0 (conf * 100))
    category := determineCategory u weightedScore
    reasoning := generateReasoning a it lo fi
    factors :=
      [("Academic Fit", a * 100, weightOf "academic_fit"),
       ("Interest Alignment", it * 100, weightOf "interest_alignment"),
       ("Location Preference", lo * 100, weightOf "location_preference"),
       ("Financial Fit", fi * 100, weightOf "financial_fit"),
       ("Cultural Fit", cu * 100, weightOf "cultural_fit")]
    programs := u.programs
    estimated_cost := estimateCost u p }

/-- Match records for the whole catalog, in original candidate order. -/
def buildMatches (p : StudentProfile) (unis : List University) : List MatchResult :=
  unis.map (buildMatchOne p)

/-- Filter dict of `_apply_filters`: each key is independently optional;
unknown keys are ignored by the source, hence absent here. -/
structure Filters where
  categories : Option (List String)
  min_match_percentage : Option ℚ
  max_cost : Option ℚ
deriving DecidableEq, Repr

/-- Filter application (`_apply_filters`): category allow-list, minimum match
percentage, maximum net cost, AND-combined in source order. -/
def applyFilters (ms : List MatchResult) (filters : Filters) : List MatchResult :=
  let m1 :=
    match filters.categories with
    | some cats => ms.filter (fun m => cats.contains m.category)
    | none => ms
  let m2 :=
    match filters.min_match_percentage with
    | some mp => m1.filter (fun m => decide (m.match_percentage ≥ mp))
    | none => m1
  match filters.max_cost with
  | some mc => m2.filter (fun m => decide (m.estimated_cost.net_cost ≤ mc))
  | none => m2

/-- Ordering used to model the stable descending sort
`matches.sort(key=lambda x: x["match_percentage"], reverse=True)`: a stable
descending sort is exactly the sort by (percentage descending, original
position ascending); entries are paired with their original position. -/
def pctIdxRel (a b : ℕ × MatchResult) : Prop :=
  b.2.match_percentage < a.2.match_percentage ∨
    (a.2.match_percentage = b.2.match_percentage ∧ a.1 ≤ b.1)

instance : DecidableRel pctIdxRel := fun a b => by
  unfold pctIdxRel; infer_instance

instance : IsTotal (ℕ × MatchResult) pctIdxRel where
  total a b := by
    unfold pctIdxRel
    rcases lt_trichotomy a.2.match_percentage b.2.match_percentage with h | h | h
    · exact Or.inr (Or.inl h)
    · rcases Nat.le_total a.1 b.1 with h2 | h2
      · exact Or.inl (Or.inr ⟨h, h2⟩)
      · exact Or.inr (Or.inr ⟨h.symm, h2⟩)
    · exact Or.inl (Or.inl h)

instance : IsTrans (ℕ × MatchResult) pctIdxRel where
  trans a b c hab hbc := by
    unfold pctIdxRel at *
    rcases hab with h1 | ⟨e1, l1⟩
    · rcases hbc with h2 | ⟨e2, _⟩
      · exact Or.inl (h2.trans h1)
      · exact Or.inl (e2 ▸ h1)
    · rcases hbc with h2 | ⟨e2, l2⟩
      · exact Or.inl (e1 ▸ h2)
      · exact Or.inr ⟨e1.trans e2, l1.trans l2⟩

/-- Ranked match list before truncation: filtered matches paired with their
original positions and sorted by the stable descending ordering. -/
def findMatchesRanked (p : StudentProfile) (filters : Option Filters)
    (unis : List University) : List (ℕ × MatchResult) :=
  let ms := buildMatches p unis
  let filtered :=
    match filters with
    | some f => applyFilters ms f
    | none => ms
  List.insertionSort pctIdxRel filtered.enum

/-- Result of `find_matches`: ranked matches truncated to `max_results`
(`matches[:max_results]`). A `filters` value of `none` models both an absent
and an empty (falsy) filter dict. -/
def findMatches (p : StudentProfile) (maxResults : ℕ) (filters : Option Filters)
    (unis : List University) : List MatchResult :=
  ((findMatchesRanked p filters unis).map Prod.snd).take maxResults

/-- Entry returned by `get_similar_universities`. -/
structure SimilarUniversity where
  university_id : String
  university_name : String
  similarity_score : ℚ
  programs : List Program
  location : Location
deriving DecidableEq, Repr

/-- Default university used for positional reads; every position reaching it
in this development is in range. -/
def dfltUni : University :=
  { id := "", name := "", location := { city := "", state := "", country := "" },
    ranking := none, admission_requirements := none, programs := [], metadata := none }

/-- First position of a list element satisfying a predicate, modelling
`target_uni.index[0]` on the boolean-mask selection of the source (the index
of the first row whose id equals the query id). -/
def firstIdx {α : Type} (p : α → Bool) : List α → Option ℕ
  | [] => none
  | a :: l => if p a then some 0 else (firstIdx p l).map (· + 1)

/-- Ordering for the ascending argsort of a value list: by value, ties by
position. -/
def valIdxRel (vals : List ℚ) (i j : ℕ) : Prop :=
  vals.getD i 0 < vals.getD j 0 ∨ (vals.getD i 0 = vals.getD j 0 ∧ i ≤ j)

instance (vals : List ℚ) : DecidableRel (valIdxRel vals) := fun i j => by
  unfold valIdxRel; infer_instance

instance (vals : List ℚ) : IsTotal ℕ (valIdxRel vals) where
  total i j := by
    unfold valIdxRel
    rcases lt_trichotomy (vals.getD i 0) (vals.getD j 0) with h | h | h
    · exact Or.inl (Or.inl h)
    · rcases Nat.le_total i j with h2 | h2
      · exact Or.inl (Or.inr ⟨h, h2⟩)
      · exact Or.inr (Or.inr ⟨h.symm, h2⟩)
    · exact Or.inr (Or.inl h)

instance (vals : List ℚ) : IsTrans ℕ (valIdxRel vals) where
  trans a b c hab hbc := by
    unfold valIdxRel at *
    rcases hab with h1 | ⟨e1, l1⟩
    · rcases hbc with h2 | ⟨e2, _⟩
      · exact Or.inl (h1.trans h2)
      · exact Or.inl (e2 ▸ h1)
    · rcases hbc with h2 | ⟨e2, l2⟩
      · exact Or.inl (e1 ▸ h2)
      · exact Or.inr ⟨e1.trans e2, l1.trans l2⟩

/-- Positions sorted by ascending value, modelling `similarities.argsort()`.
Numpy leaves the order of equal values unspecified; the properties proved
below do not depend on the tie order, and a stable order is fixed here. -/
def argsortAsc (vals : List ℚ) : List ℕ :=
  List.insertionSort (valIdxRel vals) (List.range vals.length)

/-- Body of `get_similar_universities` once the target row is found: compute
the similarity row, argsort it ascending, take the slice `[-limit-1:-1]`
(the positions of the `limit` largest values, the final and largest one
dropped), reverse to descending, and keep every position other than the
target, reading off the result records. -/
def similarBody (unis : List University) (sim : ℕ → ℕ → ℚ) (targetIdx : ℕ)
    (limit : ℕ) : List SimilarUniversity :=
  let n := unis.length
  let similarities := (List.range n).map (fun i => sim targetIdx i)
  let argsorted := argsortAsc similarities
  let similarIndices := ((argsorted.take (n - 1)).drop (n - (limit + 1))).reverse
  (similarIndices.filter (fun idx => idx != targetIdx)).map (fun idx =>
    let uni := unis.getD idx dfltUni
    { university_id := uni.id, university_name := uni.name,
      similarity_score := similarities.getD idx 0,
      programs := uni.programs, location := uni.location })

/-- Result of `get_similar_universities` (lines 535-571) over a built index.
The TF-IDF artifact and `cosine_similarity` are external sklearn
collaborators, so the pairwise similarity values are abstracted as the
function `sim` of row positions; all claims are proved for every `sim`. The
result `none` models a raised fault: for an index built from zero candidates
the attribute `university_tfidf` is never assigned (it is set only under
`if text_features:` in `_preprocess_university_data`), so the guard reading
it on line 542 raises `AttributeError` instead of returning a value. -/
def getSimilarUniversities (unis : List University) (sim : ℕ → ℕ → ℚ)
    (universityId : String) (limit : ℕ) : Option (List SimilarUniversity) :=
  if unis.isEmpty then none
  else
    match firstIdx (fun u => u.id == universityId) unis with
    | none => some []
    | some targetIdx => some (similarBody unis sim targetIdx limit)

/-- Tag for the three constructed model kinds (the `type` entry of the dicts
returned by the three loader methods of `ModelManager`). -/
inductive Model where
  | transformer
  | collaborativeFiltering
  | gradientBoosting
deriving DecidableEq, Repr

/-- Model config dict; only its `type` entry steers control flow in
`load_model`. -/
structure ModelConfig where
  ctype : String
deriving DecidableEq, Repr

/-- Metadata record stored per loaded model (lines 92-97). -/
structure ModelMetadata where
  config : ModelConfig
  loadedAt : ℚ
  lastUsed : ℚ
  usageCount : ℕ
deriving DecidableEq, Repr

/-- Manager state: the two dicts of `ModelManager`, as association lists in
insertion order (Python dicts preserve insertion order). -/
structure ManagerState where
  loadedModels : List (String × Model)
  modelMetadata : List (String × ModelMetadata)
deriving DecidableEq, Repr

/-- Environment of one manager call: the psutil memory reading, the
configured budget, whether pulling the external transformer weights succeeds,
and the wall clock (seconds). -/
structure Env where
  availableMB : ℚ
  maxModelMemoryMB : ℚ
  transformerLoadOk : Bool
  now : ℚ
deriving DecidableEq, Repr

/-- Association-list lookup modelling a Python dict read. -/
def alookup {α : Type} : List (String × α) → String → Option α
  | [], _ => none
  | q :: l, k => if q.1 = k then some q.2 else alookup l k

/-- Association-list key deletion modelling `del d[k]`. -/
def aerase {α : Type} (l : List (String × α)) (k : String) : List (String × α) :=
  l.filter (fun q => q.1 != k)

/-- Memory admission check `_check_memory_availability` (lines 212-217):
available memory in MB must strictly exceed the configured budget. -/
def checkMemoryAvailability (env : Env) : Bool :=
  decide (env.availableMB > env.maxModelMemoryMB)

/-- Supported values of `config["type"]` in the dispatch of `load_model`
(lines 80-88); any other value hits the `else` branch and fails. -/
def isSupportedType (cfg : ModelConfig) : Bool :=
  cfg.ctype == "transformer" || cfg.ctype == "collaborative_filtering" ||
  cfg.ctype == "gradient_boosting"

/-- Construction dispatch of `load_model` lines 80-85 together with the three
loader methods: the collaborative-filtering and gradient-boosting loaders
always return a dict, while the transformer loader returns `None` when the
external pretrained weights cannot be fetched (its `except` branch). -/
def constructModel (env : Env) (cfg : ModelConfig) : Option Model :=
  if cfg.ctype == "transformer" then
    (if env.transformerLoadOk then some Model.transformer else none)
  else if cfg.ctype == "collaborative_filtering" then some Model.collaborativeFiltering
  else if cfg.ctype == "gradient_boosting" then some Model.gradientBoosting
  else none

/-- True exactly when a `load_model` call reaches one of the three
constructor invocations (lines 80-85): the name is not already loaded, the
memory admission check passed, and the configured type is supported. -/
def loadAttemptsConstruction (env : Env) (st : ManagerState) (modelName : String)
    (cfg : ModelConfig) : Bool :=
  (alookup st.loadedModels modelName).isNone && checkMemoryAvailability env &&
    isSupportedType cfg

/-- The `load_model` operation (lines 64-105): early True when already
loaded, False without mutation when the admission check fails, the type is
unsupported, or the constructor returns `None`; on success both dicts gain
the new entry. -/
def loadModel (env : Env) (st : ManagerState) (modelName : String)
    (cfg : ModelConfig) : Bool × ManagerState :=
  if (alookup st.loadedModels modelName).isSome then (true, st)
  else if !checkMemoryAvailability env then (false, st)
  else if !isSupportedType cfg then (false, st)
  else
    match constructModel env cfg with
    | some model =>
      (true,
       { loadedModels := st.loadedModels ++ [(modelName, model)]
         modelMetadata := st.modelMetadata ++
           [(modelName,
             { config := cfg, loadedAt := env.now, lastUsed := env.now, usageCount := 0 })] })
    | none => (false, st)

/-- The `get_model` operation (lines 180-190): `None` when the name is not
loaded; otherwise the metadata entry gets a fresh `last_used` stamp and an
incremented `usage_count` and the model is returned. When the name is loaded
but has no metadata entry the source raises `KeyError` before mutating
anything; that branch returns the unchanged state (no value is produced in
Python; the key sets are always equal in reachable states, see the invariant
theorem below). -/
def getModel (env : Env) (st : ManagerState) (modelName : String) :
    Option Model × ManagerState :=
  if (alookup st.loadedModels modelName).isNone then (none, st)
  else if (alookup st.modelMetadata modelName).isNone then (none, st)
  else
    (alookup st.loadedModels modelName,
     { st with
        modelMetadata := st.modelMetadata.map (fun q =>
          if q.1 = modelName then
            (q.1, { q.2 with lastUsed := env.now, usageCount := q.2.usageCount + 1 })
          else q) })

/-- The `unload_model` operation (lines 192-210): False when the name is not
loaded; otherwise both dict entries are deleted. When the metadata entry is
missing the second `del` raises `KeyError`, which the `except` turns into
False after the first `del` already happened; that branch is modelled
faithfully even though it is unreachable from states with equal key sets. -/
def unloadModel (st : ManagerState) (modelName : String) : Bool × ManagerState :=
  if (alookup st.loadedModels modelName).isNone then (false, st)
  else
    let loaded2 := aerase st.loadedModels modelName
    if (alookup st.modelMetadata modelName).isNone then
      (false, { st with loadedModels := loaded2 })
    else (true, { loadedModels := loaded2, modelMetadata := aerase st.modelMetadata modelName })

/-- The `reload_model` operation (lines 259-271): False when the name has no
metadata record; otherwise unload followed by a fresh load with the stored
config. -/
def reloadModel (env : Env) (st : ManagerState) (modelName : String) :
    Bool × ManagerState :=
  match alookup st.modelMetadata modelName with
  | none => (false, st)
  | some md =>
    let st1 := (unloadModel st modelName).2
    loadModel env st1 modelName md.config

/-- The `cleanup_unused_models` operation (lines 230-242): collect every name
whose idle time (now minus `last_used`, in seconds) exceeds the threshold of
`max_idle_hours` hours, then unload each. -/
def cleanupUnusedModels (now maxIdleHours : ℚ) (st : ManagerState) : ManagerState :=
  let toUnload := (st.modelMetadata.filter
    (fun q => decide (now - q.2.lastUsed > maxIdleHours * 3600))).map Prod.fst
  toUnload.foldl (fun s n => (unloadModel s n).2) st

/-- The `cleanup` operation (lines 302-314): unload every loaded model. -/
def cleanupAll (st : ManagerState) : ManagerState :=
  (st.loadedModels.map Prod.fst).foldl (fun s n => (unloadModel s n).2) st

/-- Key-set synchronisation invariant of the manager: the two dicts hold
exactly the same keys, in the same insertion order. -/
def sameKeys (st : ManagerState) : Prop :=
  st.loadedModels.map Prod.fst = st.modelMetadata.map Prod.fst

/-- Pointwise predicate over an optional value: trivially true when absent. -/
def OptionAllP {α : Type} (P : α → Prop) : Option α → Prop
  | none => True
  | some a => P a

/-- Well-formed student profile: numeric inputs respect the documented
domains (GPA nonnegative, test totals nonnegative, a supplied budget
positive). The spec restricts GPA to [0,4] and validates inputs upstream;
only the lower bounds are needed for the score-range theorems. -/
def WFProfile (p : StudentProfile) : Prop :=
  OptionAllP (fun g => 0 ≤ g) p.gpa ∧
  OptionAllP (fun sts =>
    OptionAllP (fun e => OptionAllP (fun t => 0 ≤ t) e.total) sts.sat ∧
    OptionAllP (fun e => OptionAllP (fun t => 0 ≤ t) e.total) sts.gre) p.test_scores ∧
  OptionAllP (fun fc => OptionAllP (fun m => 0 < m) fc.max_annual_cost)
    p.financial_constraints

/-- Well-formed candidate: a supplied minimum GPA is positive and a supplied
tuition nonnegative (the defaults 3.0 and 50000 also satisfy this). -/
def WFUniversity (u : University) : Prop :=
  OptionAllP (fun ar => OptionAllP (fun g => 0 < g) ar.minGPA)
    u.admission_requirements ∧
  OptionAllP (fun md => OptionAllP (fun t => 0 ≤ t) md.tuition) u.metadata

/-- Example student profile with no optional data supplied. -/
def pEx : StudentProfile :=
  { gpa := none, test_scores := none, academic_interests := [],
    target_programs := [], location_preferences := [],
    financial_constraints := none, extracurriculars := [] }

/-- Example student profile with one location preference. -/
def pLocEx : StudentProfile := { pEx with location_preferences := ["boston"] }

/-- Example candidate university. -/
def uEx : University :=
  { id := "u1", name := "Alpha University",
    location := { city := "Boston", state := "MA", country := "USA" },
    ranking := some 10, admission_requirements := none, programs := [],
    metadata := none }

/-- Second example candidate with a distinct id. -/
def uBx : University := { uEx with id := "u2", name := "Beta University" }

/-- Example environment with ample memory. -/
def envOkEx : Env :=
  { availableMB := 1000, maxModelMemoryMB := 500, transformerLoadOk := true, now := 0 }

/-- Example environment failing the memory admission check. -/
def envLowEx : Env :=
  { availableMB := 100, maxModelMemoryMB := 500, transformerLoadOk := true, now := 0 }

/-- Empty manager state. -/
def st0Ex : ManagerState := { loadedModels := [], modelMetadata := [] }

/-- Example collaborative-filtering config. -/
def cfgCFEx : ModelConfig := { ctype := "collaborative_filtering" }

/-- Manager state with the model "m" loaded and its metadata in sync. -/
def stLoadedEx : ManagerState :=
  { loadedModels := [("m", Model.collaborativeFiltering)],
    modelMetadata :=
      [("m", { config := cfgCFEx, loadedAt := 0, lastUsed := 0, usageCount := 0 })] }

theorem alookup_isSome_iff_mem {α : Type} (l : List (String × α)) (k : String) :
    (alookup l k).isSome ↔ k ∈ l.map Prod.fst := by
  induction l with
  | nil => simp [alookup]
  | cons q l ih =>
    by_cases h : q.1 = k
    · simp [alookup, h]
    · simp [alookup, h, ih, Ne.symm h]

theorem alookup_aerase {α : Type} (l : List (String × α)) (k m : String) :
    alookup (aerase l k) m = if m = k then none else alookup l m := by
  induction l with
  | nil => simp [aerase, alookup]
  | cons q l ih =>
    by_cases hqk : q.1 = k
    · have : aerase (q :: l) k = aerase l k := by
        simp [aerase, List.filter_cons, hqk]
      rw [this, ih]
      by_cases hmk : m = k
      · simp [hmk]
      · simp [hmk, alookup, show q.1 ≠ m from fun h => hmk (h ▸ hqk ▸ rfl)]
    · have : aerase (q :: l) k = q :: aerase l k := by
        simp [aerase, List.filter_cons, hqk]
      rw [this]
      by_cases hqm : q.1 = m
      · have hmk : m ≠ k := fun h => hqk (hqm.trans h)
        simp [alookup, hqm, hmk]
      · simp [alookup, hqm, ih]

theorem map_fst_aerase {α : Type} (l : List (String × α)) (k : String) :
    (aerase l k).map Prod.fst = (l.map Prod.fst).filter (fun s => s != k) := by
  induction l with
  | nil => rfl
  | cons q l ih =>
    by_cases h : q.1 = k <;>
      simp [aerase, List.filter_cons, h, ih] <;>
      simp [aerase] at ih <;> exact ih

theorem alookup_append_right {α : Type} (l1 l2 : List (String × α)) (k : String)
    (h : alookup l1 k = none) : alookup (l1 ++ l2) k = alookup l2 k := by
  induction l1 with
  | nil => simp
  | cons q l1 ih =>
    by_cases hq : q.1 = k
    · simp [alookup, hq] at h
    · simp [alookup, hq] at h ⊢
      exact ih h

theorem sameKeys_lookup {st : ManagerState} (hs : sameKeys st) (k : String) :
    (alookup st.loadedModels k).isSome ↔ (alookup st.modelMetadata k).isSome := by
  rw [alookup_isSome_iff_mem, alookup_isSome_iff_mem, hs]

theorem loadModel_sameKeys (env : Env) (st : ManagerState) (n : String)
    (cfg : ModelConfig) (hs : sameKeys st) : sameKeys (loadModel env st n cfg).2 := by
  unfold loadModel
  split
  · exact hs
  · split
    · exact hs
    · split
      · exact hs
      · split
        · unfold sameKeys at *
          simp [hs]
        · exact hs

theorem getModel_sameKeys (env : Env) (st : ManagerState) (n : String)
    (hs : sameKeys st) : sameKeys (getModel env st n).2 := by
  unfold getModel
  split
  · exact hs
  · split
    · exact hs
    · unfold sameKeys at *
      rw [hs]
      simp only [List.map_map]
      refine (List.map_congr_left ?_).symm
      intro q _
      by_cases h : q.1 = n <;> simp [h]

theorem metadata_isSome_of_loaded {st : ManagerState} (hs : sameKeys st)
    {n : String} (h : alookup st.loadedModels n ≠ none) :
    ¬((alookup st.modelMetadata n).isNone = true) := by
  have hl2 : (alookup st.loadedModels n).isSome := Option.ne_none_iff_isSome.mp h
  have hmd2 : (alookup st.modelMetadata n).isSome := (sameKeys_lookup hs n).mp hl2
  obtain ⟨w, hw⟩ := Option.isSome_iff_exists.mp hmd2
  simp [hw]

theorem unloadModel_sameKeys (st : ManagerState) (n : String) (hs : sameKeys st) :
    sameKeys (unloadModel st n).2 := by
  unfold unloadModel
  cases hcase : alookup st.loadedModels n with
  | none => simp [hcase, hs]
  | some v =>
    rw [if_neg (by simp : ¬((some v).isNone = true)),
      if_neg (metadata_isSome_of_loaded hs (by simp [hcase]))]
    show (aerase st.loadedModels n).map Prod.fst = (aerase st.modelMetadata n).map Prod.fst
    rw [map_fst_aerase, map_fst_aerase, hs]

theorem unloadModel_alookup (st : ManagerState) (n : String) (hs : sameKeys st)
    (k : String) :
    alookup (unloadModel st n).2.loadedModels k =
      if k = n then none else alookup st.loadedModels k := by
  unfold unloadModel
  cases hcase : alookup st.loadedModels n with
  | none =>
    simp only [hcase, Option.isNone_none, if_true]
    by_cases hk : k = n
    · subst hk
      simp [hcase]
    · simp [hk]
  | some v =>
    rw [if_neg (by simp : ¬((some v).isNone = true)),
      if_neg (metadata_isSome_of_loaded hs (by simp [hcase]))]
    exact alookup_aerase st.loadedModels n k

theorem foldUnload_sameKeys (L : List String) (st : ManagerState) (hs : sameKeys st) :
    sameKeys (L.foldl (fun s n => (unloadModel s n).2) st) := by
  induction L generalizing st with
  | nil => exact hs
  | cons n L ih =>
    rw [List.foldl_cons]
    exact ih _ (unloadModel_sameKeys st n hs)

theorem foldUnload_alookup (L : List String) (st : ManagerState) (hs : sameKeys st)
    (k : String) :
    alookup (L.foldl (fun s n => (unloadModel s n).2) st).loadedModels k =
      if k ∈ L then none else alookup st.loadedModels k := by
  induction L generalizing st with
  | nil => simp
  | cons n L ih =>
    rw [List.foldl_cons, ih _ (unloadModel_sameKeys st n hs),
      unloadModel_alookup st n hs k]
    by_cases hkL : k ∈ L
    · simp [hkL]
    · by_cases hkn : k = n
      · simp [hkL, hkn]
      · simp [hkL, hkn]

theorem mem_filter_keys {α : Type} (l : List (String × α)) (pred : String × α → Bool)
    (hnd : (l.map Prod.fst).Nodup) (k : String) (v : α) (hl : alookup l k = some v) :
    (k ∈ (l.filter pred).map Prod.fst ↔ pred (k, v) = true) := by
  induction l with
  | nil => simp [alookup] at hl
  | cons q l ih =>
    have hnd2 : (l.map Prod.fst).Nodup := (List.nodup_cons.mp (by simpa using hnd)).2
    have hq : q.1 ∉ l.map Prod.fst := (List.nodup_cons.mp (by simpa using hnd)).1
    have hsub : ∀ s, s ∈ (l.filter pred).map Prod.fst → s ∈ l.map Prod.fst := by
      intro s hsmem
      obtain ⟨q2, hq2mem, hq2eq⟩ := List.mem_map.mp hsmem
      exact List.mem_map.mpr ⟨q2, List.mem_of_mem_filter hq2mem, hq2eq⟩
    by_cases hqk : q.1 = k
    · have hv : q.2 = v := by
        have := hl
        simp [alookup, hqk] at this
        exact this
      have hq2 : q = (k, v) := by
        cases q
        simp at hqk hv
        simp [hqk, hv]
      have hkrest : k ∉ (l.filter pred).map Prod.fst := fun hmem =>
        hq (hqk ▸ hsub k hmem)
      by_cases hp : pred q = true
      · rw [List.filter_cons_of_pos hp]
        simp [hq2 ▸ hp, hq2]
      · rw [List.filter_cons_of_neg (by simpa using hp)]
        simp only [hq2] at hp
        simp [hkrest, hp]
    · have hl2 : alookup l k = some v := by
        have := hl
        simp [alookup, hqk] at this
        exact this
      by_cases hp : pred q = true
      · rw [List.filter_cons_of_pos hp]
        simp only [List.map_cons, List.mem_cons]
        rw [ih hnd2 hl2]
        constructor
        · rintro (h | h)
          · exact absurd h.symm hqk
          · exact h
        · exact fun h => Or.inr h
      · rw [List.filter_cons_of_neg (by simpa using hp)]
        exact ih hnd2 hl2

/-- C10: the manager invariant that `loaded_models` and `model_metadata`
always hold exactly the same keys. Lookup presence coincides under the
invariant, and every operation of the manager preserves it: `load_model`,
`get_model`, `unload_model`, `reload_model`, `cleanup_unused_models` and
`cleanup`. -/
theorem loaded_and_metadata_keys_synced :
    (∀ st : ManagerState, sameKeys st → ∀ k,
      ((alookup st.loadedModels k).isSome ↔ (alookup st.modelMetadata k).isSome)) ∧
    (∀ (env : Env) (st : ManagerState) (n : String) (cfg : ModelConfig),
      sameKeys st → sameKeys (loadModel env st n cfg).2) ∧
    (∀ (env : Env) (st : ManagerState) (n : String),
      sameKeys st → sameKeys (getModel env st n).2) ∧
    (∀ (st : ManagerState) (n : String),
      sameKeys st → sameKeys (unloadModel st n).2) ∧
    (∀ (env : Env) (st : ManagerState) (n : String),
      sameKeys st → sameKeys (reloadModel env st n).2) ∧
    (∀ (now maxIdleHours : ℚ) (st : ManagerState),
      sameKeys st → sameKeys (cleanupUnusedModels now maxIdleHours st)) ∧
    (∀ st : ManagerState, sameKeys st → sameKeys (cleanupAll st)) := by
  refine ⟨fun st hs k => sameKeys_lookup hs k,
    loadModel_sameKeys,
    getModel_sameKeys,
    unloadModel_sameKeys,
    ?_, ?_, ?_⟩
  · intro env st n hs
    unfold reloadModel
    cases alookup st.modelMetadata n with
    | none => exact hs
    | some md => exact loadModel_sameKeys _ _ _ _ (unloadModel_sameKeys st n hs)
  · intro now maxIdleHours st hs
    exact foldUnload_sameKeys _ st hs
  · intro st hs
    exact foldUnload_sameKeys _ st hs

/-- C10 witness: the invariant transport at a concrete load on the empty
state. -/
theorem loaded_and_metadata_keys_synced_witness :
    sameKeys (loadModel envOkEx st0Ex "m" cfgCFEx).2 :=
  loaded_and_metadata_keys_synced.2.1 envOkEx st0Ex "m" cfgCFEx rfl

/-- C5: `cleanup_unused_models` unloads exactly the resources whose idle time
(now minus last use, in seconds) exceeds the threshold of `max_idle_hours`
hours: after the sweep a name with a metadata record is still loaded if and
only if its idle time does not exceed the threshold. In particular a
resource used within the threshold is never unloaded. -/
theorem cleanup_unused_evicts_exactly_idle (now maxIdleHours : ℚ)
    (st : ManagerState) (hs : sameKeys st)
    (hnd : (st.modelMetadata.map Prod.fst).Nodup)
    (k : String) (md : ModelMetadata) (hmd : alookup st.modelMetadata k = some md) :
    ((alookup (cleanupUnusedModels now maxIdleHours st).loadedModels k).isSome ↔
      ¬(now - md.lastUsed > maxIdleHours * 3600)) := by
  unfold cleanupUnusedModels
  rw [foldUnload_alookup _ _ hs]
  have hmem := mem_filter_keys st.modelMetadata
    (fun q => decide (now - q.2.lastUsed > maxIdleHours * 3600)) hnd k md hmd
  by_cases hin : k ∈ (st.modelMetadata.filter
      (fun q => decide (now - q.2.lastUsed > maxIdleHours * 3600))).map Prod.fst
  · have hidle : now - md.lastUsed > maxIdleHours * 3600 := by
      have := hmem.mp hin
      simpa using this
    simp [hin, hidle]
  · have hidle : ¬(now - md.lastUsed > maxIdleHours * 3600) := by
      intro h
      exact hin (hmem.mpr (by simpa using h))
    have hloaded : (alookup st.loadedModels k).isSome :=
      (sameKeys_lookup hs k).mpr (by simp [hmd])
    simp [hin, hloaded, hidle]

/-- C5 witness: with the clock at 10000 seconds and a 2 hour threshold the
model last used at time 0 is evicted. -/
theorem cleanup_unused_evicts_exactly_idle_witness :
    ((alookup (cleanupUnusedModels 10000 2 stLoadedEx).loadedModels "m").isSome ↔
      ¬((10000 : ℚ) - 0 > 2 * 3600)) :=
  cleanup_unused_evicts_exactly_idle 10000 2 stLoadedEx rfl (by decide) "m"
    { config := cfgCFEx, loadedAt := 0, lastUsed := 0, usageCount := 0 } rfl

/-- C3: admission policy and failure atomicity of `load_model`. A
constructor is reached only when available memory strictly exceeds the
configured per-resource budget, and whenever the call returns False
(insufficient memory, unsupported kind or failed construction) the loaded
models and all their metadata are exactly as before the call. -/
theorem load_model_admission_gate_and_failure_atomicity (env : Env)
    (st : ManagerState) (n : String) (cfg : ModelConfig) :
    (loadAttemptsConstruction env st n cfg = true →
      env.availableMB > env.maxModelMemoryMB) ∧
    ((loadModel env st n cfg).1 = false → (loadModel env st n cfg).2 = st) := by
  constructor
  · intro h
    unfold loadAttemptsConstruction checkMemoryAvailability at h
    simp only [Bool.and_eq_true, decide_eq_true_eq] at h
    exact h.1.2
  · unfold loadModel
    split
    · intro h; exact absurd h (by simp)
    · split
      · intro _; rfl
      · split
        · intro _; rfl
        · split
          · intro h; exact absurd h (by simp)
          · intro _; rfl

/-- C3 witness: at a passing gate the memory bound holds, and a load failing
its admission check leaves the empty state unchanged. -/
theorem load_model_admission_gate_and_failure_atomicity_witness :
    envOkEx.availableMB > envOkEx.maxModelMemoryMB ∧
    (loadModel envLowEx st0Ex "m" cfgCFEx).2 = st0Ex :=
  ⟨(load_model_admission_gate_and_failure_atomicity envOkEx st0Ex "m" cfgCFEx).1
      (by decide),
   (load_model_admission_gate_and_failure_atomicity envLowEx st0Ex "m" cfgCFEx).2
      (by decide)⟩

/-- C4 counterexample: with "m" already loaded, `load_model` for "m" returns
True, the ok result of the operation, rather than any failure result; the
claim that a repeated load fails with an alreadyLoaded outcome is false on
the code (lines 69-71 return True early). -/
theorem load_model_already_loaded_returns_true :
    (loadModel envOkEx stLoadedEx "m" cfgCFEx).1 = true := by decide

theorem loadModel_of_loaded (env : Env) (st : ManagerState) (n : String)
    (cfg : ModelConfig) (h : (alookup st.loadedModels n).isSome) :
    loadModel env st n cfg = (true, st) := by
  unfold loadModel
  rw [if_pos h]

/-- C4 amended: when the requested name is already loaded, `load_model`
returns ok (True) immediately and leaves the manager state unchanged; no
reconstruction takes place. -/
theorem load_model_already_loaded_noop (env : Env) (st : ManagerState)
    (n : String) (cfg : ModelConfig) (h : (alookup st.loadedModels n).isSome) :
    loadModel env st n cfg = (true, st) :=
  loadModel_of_loaded env st n cfg h

/-- C4 amended witness. -/
theorem load_model_already_loaded_noop_witness :
    loadModel envOkEx stLoadedEx "m" cfgCFEx = (true, stLoadedEx) :=
  load_model_already_loaded_noop envOkEx stLoadedEx "m" cfgCFEx (by decide)

theorem alookup_append_single {α : Type} (l : List (String × α)) (k : String)
    (v : α) (h : alookup l k = none) : alookup (l ++ [(k, v)]) k = some v := by
  rw [alookup_append_right l _ k h]
  simp [alookup]

/-- C9: two concurrent `load_model` calls for the same name. Every await in
the body of `load_model` awaits a plain coroutine that itself contains no
await (the three loader methods run only synchronous code), so under the
asyncio event loop each call runs from start to finish without yielding to
the other: concurrent calls serialize, in either order, into two sequential
calls. For a name not yet loaded, with the admission check passing and the
constructor succeeding, the first serialized call performs the one and only
construction and returns True, while the second reaches no constructor,
also returns True (joining the already-available result), and leaves the
state unchanged: exactly one constructed resource, no duplicate, no lost
load. -/
theorem concurrent_same_name_loads_single_construction (env : Env)
    (st : ManagerState) (n : String) (cfg : ModelConfig)
    (hnot : alookup st.loadedModels n = none)
    (hmem : checkMemoryAvailability env = true)
    (hsupp : isSupportedType cfg = true)
    (hcons : (constructModel env cfg).isSome = true) :
    loadAttemptsConstruction env st n cfg = true ∧
    (loadModel env st n cfg).1 = true ∧
    loadAttemptsConstruction env (loadModel env st n cfg).2 n cfg = false ∧
    loadModel env (loadModel env st n cfg).2 n cfg =
      (true, (loadModel env st n cfg).2) := by
  obtain ⟨m, hm⟩ := Option.isSome_iff_exists.mp hcons
  have h1 : loadModel env st n cfg =
      (true,
       { loadedModels := st.loadedModels ++ [(n, m)]
         modelMetadata := st.modelMetadata ++
           [(n, { config := cfg, loadedAt := env.now, lastUsed := env.now,
                  usageCount := 0 })] }) := by
    unfold loadModel
    rw [hnot, hmem, hsupp, hm]
    simp
  have h2 : alookup (loadModel env st n cfg).2.loadedModels n = some m := by
    rw [h1]
    exact alookup_append_single st.loadedModels n m hnot
  refine ⟨?_, ?_, ?_, ?_⟩
  · unfold loadAttemptsConstruction
    rw [hnot, hmem, hsupp]
    rfl
  · rw [h1]
  · unfold loadAttemptsConstruction
    rw [h2]
    rfl
  · exact loadModel_of_loaded env _ n cfg (by rw [h2]; rfl)

/-- C9 witness: on the empty state, the first of two serialized loads of "m"
succeeds and the second reaches no constructor. -/
theorem concurrent_same_name_loads_single_construction_witness :
    (loadModel envOkEx st0Ex "m" cfgCFEx).1 = true ∧
    loadAttemptsConstruction envOkEx (loadModel envOkEx st0Ex "m" cfgCFEx).2
      "m" cfgCFEx = false :=
  ⟨(concurrent_same_name_loads_single_construction envOkEx st0Ex "m" cfgCFEx
      rfl (by decide) (by decide) (by decide)).2.1,
   (concurrent_same_name_loads_single_construction envOkEx st0Ex "m" cfgCFEx
      rfl (by decide) (by decide) (by decide)).2.2.1⟩

/-- C6: the location preference cases. With no preference supplied the score
is 0.7 for every candidate; otherwise 1.0 when some preference is a
case-insensitive substring of the candidate city, state or country; 0.6 when
a preference names the broad country-level region recognised by the code and
it matches the candidate country; and 0.3 otherwise. The first conjunct ties
the per-candidate statement to the catalog-wide computation. -/
theorem location_preference_cases (p : StudentProfile) (u : University)
    (unis : List University) :
    calculateLocationPreference p unis = unis.map (locationPreferenceOne p) ∧
    (p.location_preferences = [] → locationPreferenceOne p u = 7/10) ∧
    (p.location_preferences ≠ [] →
      (locPrefExactMatch p u = true → locationPreferenceOne p u = 1) ∧
      (locPrefExactMatch p u = false → locPrefBroadRegionMatch p u = true →
        locationPreferenceOne p u = 3/5) ∧
      (locPrefExactMatch p u = false → locPrefBroadRegionMatch p u = false →
        locationPreferenceOne p u = 3/10)) := by
  refine ⟨rfl, ?_, ?_⟩
  · intro h
    unfold locationPreferenceOne
    simp [h]
  · intro hne
    have hne2 : p.location_preferences.isEmpty = false := by
      cases hl : p.location_preferences with
      | nil => exact absurd hl hne
      | cons a l => rfl
    refine ⟨?_, ?_, ?_⟩
    · intro hex
      unfold locationPreferenceOne
      rw [hne2]
      simp [hex]
    · intro hex hbr
      unfold locationPreferenceOne
      rw [hne2]
      simp [hex, hbr]
    · intro hex hbr
      unfold locationPreferenceOne
      rw [hne2]
      simp [hex, hbr]

/-- C6 witness: the neutral and the exact-match cases at concrete inputs. -/
theorem location_preference_cases_witness :
    locationPreferenceOne pEx uEx = 7/10 ∧ locationPreferenceOne pLocEx uEx = 1 :=
  ⟨(location_preference_cases pEx uEx []).2.1 rfl,
   ((location_preference_cases pLocEx uEx []).2.2 (by decide)).1 (by decide)⟩

/-- C8 counterexample: on the index built from zero candidates (which the
spec calls a queryable built index) a lookup of an absent id raises
(`university_tfidf` was never assigned, so line 542 raises AttributeError,
modelled as `none`) instead of delivering the empty list. -/
theorem get_similar_empty_index_faults :
    getSimilarUniversities [] (fun _ _ => 0) "u1" 5 = none := rfl

theorem firstIdx_eq_none {α : Type} (p : α → Bool) (l : List α)
    (h : ∀ x ∈ l, p x = false) : firstIdx p l = none := by
  induction l with
  | nil => rfl
  | cons a l ih =>
    simp [firstIdx, h a (by simp), ih (fun x hx => h x (by simp [hx]))]

/-- C8 amended: for every built index with at least one candidate and every
candidate id not present in it, `get_similar_universities` returns the empty
list rather than raising. -/
theorem get_similar_absent_id_returns_empty (unis : List University)
    (sim : ℕ → ℕ → ℚ) (universityId : String) (limit : ℕ)
    (hne : unis ≠ []) (habsent : ∀ u ∈ unis, u.id ≠ universityId) :
    getSimilarUniversities unis sim universityId limit = some [] := by
  unfold getSimilarUniversities
  have hne2 : unis.isEmpty = false := by
    cases hl : unis with
    | nil => exact absurd hl hne
    | cons a l => rfl
  rw [hne2, firstIdx_eq_none _ _ (fun x hx => by simp [habsent x hx])]
  rfl

/-- C8 amended witness. -/
theorem get_similar_absent_id_returns_empty_witness :
    getSimilarUniversities [uEx] (fun _ _ => 0) "zz" 5 = some [] :=
  get_similar_absent_id_returns_empty [uEx] (fun _ _ => 0) "zz" 5
    (by decide) (by decide)

theorem firstIdx_isSome {α : Type} (p : α → Bool) (l : List α) (x : α)
    (hx : x ∈ l) (hp : p x = true) : (firstIdx p l).isSome = true := by
  induction l with
  | nil => cases hx
  | cons a l ih =>
    by_cases ha : p a = true
    · simp [firstIdx, ha]
    · rcases List.mem_cons.mp hx with rfl | hx2
      · exact absurd hp ha
      · simp only [firstIdx, if_neg ha, Option.isSome_map']
        exact ih hx2

theorem firstIdx_lt_length {α : Type} (p : α → Bool) (l : List α) (i : ℕ)
    (h : firstIdx p l = some i) : i < l.length := by
  induction l generalizing i with
  | nil => simp [firstIdx] at h
  | cons a l ih =>
    by_cases ha : p a = true
    · simp only [firstIdx, if_pos ha, Option.some_inj] at h
      simp only [List.length_cons]
      omega
    · simp only [firstIdx, if_neg ha, Option.map_eq_some'] at h
      obtain ⟨j, hj, hji⟩ := h
      have := ih j hj
      simp only [List.length_cons]
      omega

theorem firstIdx_getD {α : Type} (p : α → Bool) (l : List α) (i : ℕ) (d : α)
    (h : firstIdx p l = some i) : p (l.getD i d) = true := by
  induction l generalizing i with
  | nil => simp [firstIdx] at h
  | cons a l ih =>
    by_cases ha : p a = true
    · simp only [firstIdx, if_pos ha, Option.some_inj] at h
      subst h
      simpa using ha
    · simp only [firstIdx, if_neg ha, Option.map_eq_some'] at h
      obtain ⟨j, hj, hji⟩ := h
      subst hji
      simpa [List.getD] using ih j hj

theorem similarBody_mem (unis : List University) (sim : ℕ → ℕ → ℚ)
    (targetIdx limit : ℕ) (s : SimilarUniversity)
    (hs : s ∈ similarBody unis sim targetIdx limit) :
    ∃ idx, idx < unis.length ∧ idx ≠ targetIdx ∧
      s.university_id = (unis.getD idx dfltUni).id := by
  unfold similarBody at hs
  obtain ⟨idx, hidxmem, hidxeq⟩ := List.mem_map.mp hs
  have hfil := List.mem_filter.mp hidxmem
  have hidxne : idx ≠ targetIdx := by simpa using hfil.2
  have hrange : idx ∈ List.range unis.length := by
    have h1 := List.mem_reverse.mp hfil.1
    have h2 := List.drop_subset _ _ h1
    have h3 := List.take_subset _ _ h2
    have h4 : idx ∈ argsortAsc ((List.range unis.length).map
        (fun i => sim targetIdx i)) := h3
    unfold argsortAsc at h4
    rw [List.mem_insertionSort] at h4
    simpa using h4
  exact ⟨idx, List.mem_range.mp hrange, hidxne, by rw [← hidxeq]⟩

theorem similarBody_length (unis : List University) (sim : ℕ → ℕ → ℚ)
    (targetIdx limit : ℕ) :
    (similarBody unis sim targetIdx limit).length ≤ limit := by
  unfold similarBody
  rw [List.length_map]
  calc (((((argsortAsc ((List.range unis.length).map (fun i => sim targetIdx i))).take
        (unis.length - 1)).drop (unis.length - (limit + 1))).reverse).filter
        (fun idx => idx != targetIdx)).length
      ≤ ((((argsortAsc ((List.range unis.length).map (fun i => sim targetIdx i))).take
        (unis.length - 1)).drop (unis.length - (limit + 1))).reverse).length :=
        List.length_filter_le _ _
    _ ≤ limit := by
        rw [List.length_reverse, List.length_drop, List.length_take]
        have hlen : (argsortAsc ((List.range unis.length).map
            (fun i => sim targetIdx i))).length = unis.length := by
          unfold argsortAsc
          rw [(List.perm_insertionSort _ _).length_eq]
          simp
        rw [hlen]
        omega

theorem similarBody_singleton (unis : List University) (sim : ℕ → ℕ → ℚ)
    (targetIdx limit : ℕ) (h : unis.length = 1) :
    similarBody unis sim targetIdx limit = [] := by
  unfold similarBody
  rw [h]
  simp

theorem nodup_id_getD_inj (unis : List University)
    (hnd : (unis.map University.id).Nodup) (i j : ℕ)
    (hi : i < unis.length) (hj : j < unis.length)
    (heq : (unis.getD i dfltUni).id = (unis.getD j dfltUni).id) : i = j := by
  have hi2 : i < (unis.map University.id).length := by simpa using hi
  have hj2 : j < (unis.map University.id).length := by simpa using hj
  have hget : (unis.map University.id).get ⟨i, hi2⟩ =
      (unis.map University.id).get ⟨j, hj2⟩ := by
    simp only [List.get_eq_getElem, List.getElem_map]
    rw [← List.getD_eq_getElem unis dfltUni hi, ← List.getD_eq_getElem unis dfltUni hj]
    exact heq
  have := (List.Nodup.get_inj_iff hnd).mp hget
  simpa using this

/-- C7: over every built index whose candidate ids are distinct, for every
id present in it and every limit, `get_similar_universities` produces a
value (no fault), never contains the query id, has at most `limit` entries,
and is empty when the index contains only the query candidate. Proved for
every abstract similarity function, hence for the cosine similarity of the
TF-IDF content vectors in particular. -/
theorem get_similar_excludes_query_and_bounded (unis : List University)
    (sim : ℕ → ℕ → ℚ) (universityId : String) (limit : ℕ)
    (hnd : (unis.map University.id).Nodup)
    (hmem : universityId ∈ unis.map University.id) :
    (getSimilarUniversities unis sim universityId limit).isSome = true ∧
    (∀ s ∈ (getSimilarUniversities unis sim universityId limit).getD [],
      s.university_id ≠ universityId) ∧
    ((getSimilarUniversities unis sim universityId limit).getD []).length ≤ limit ∧
    (unis.length = 1 →
      (getSimilarUniversities unis sim universityId limit).getD [] = []) := by
  obtain ⟨u0, hu0, hid0⟩ := List.mem_map.mp hmem
  have hne2 : unis.isEmpty = false := by
    cases hl : unis with
    | nil => rw [hl] at hu0; cases hu0
    | cons a l => rfl
  have hsome := firstIdx_isSome (fun u => u.id == universityId) unis u0 hu0
    (by simp [hid0])
  obtain ⟨t, ht⟩ := Option.isSome_iff_exists.mp hsome
  have htlt : t < unis.length := firstIdx_lt_length _ _ _ ht
  have htid : (unis.getD t dfltUni).id = universityId := by
    have := firstIdx_getD (fun u => u.id == universityId) unis t dfltUni ht
    simpa using this
  have hres : getSimilarUniversities unis sim universityId limit =
      some (similarBody unis sim t limit) := by
    unfold getSimilarUniversities
    rw [hne2, ht]
    rfl
  refine ⟨by rw [hres]; rfl, ?_, ?_, ?_⟩
  · intro s hs
    rw [hres] at hs
    simp only [Option.getD_some] at hs
    obtain ⟨idx, hidxlt, hidxne, hidxid⟩ := similarBody_mem unis sim t limit s hs
    intro hcontra
    apply hidxne
    apply nodup_id_getD_inj unis hnd idx t hidxlt htlt
    rw [← hidxid, hcontra, htid]
  · rw [hres]
    exact similarBody_length unis sim t limit
  · intro h1
    rw [hres]
    exact similarBody_singleton unis sim t limit h1

theorem div_unit_bounds (a b : ℚ) (h0 : 0 ≤ a) (hab : a ≤ b) (hb : 0 < b) :
    0 ≤ a / b ∧ a / b ≤ 1 :=
  ⟨div_nonneg h0 hb.le, (div_le_one hb).mpr hab⟩

theorem gpaSubScore_bounds (g m : ℚ) (hg : 0 ≤ g) (hm : 0 < m) :
    0 ≤ gpaSubScore g m ∧ gpaSubScore g m ≤ 1 := by
  unfold gpaSubScore
  split
  · exact ⟨le_min (by norm_num) (div_nonneg hg hm.le), min_le_left _ _⟩
  next h =>
    have hlt : g < m := lt_of_not_ge h
    have hdiv : g / m < 1 := (div_lt_one hm).mpr hlt
    have hdiv0 : 0 ≤ g / m := div_nonneg hg hm.le
    constructor
    · nlinarith
    · nlinarith

theorem testEntryScore_bounds (t m : ℚ) (ht : 0 ≤ t) :
    0 ≤ testEntryScore t m ∧ testEntryScore t m ≤ 1 := by
  unfold testEntryScore
  split
  next h => exact ⟨le_min (by norm_num) (div_nonneg ht h.le), min_le_left _ _⟩
  · norm_num

theorem interestAlignmentOne_bounds (p : StudentProfile) (u : University) :
    0 ≤ interestAlignmentOne p u ∧ interestAlignmentOne p u ≤ 1 := by
  unfold interestAlignmentOne
  split
  · norm_num
  · dsimp only
    refine ⟨le_min (by norm_num) ?_, min_le_left _ _⟩
    split
    · norm_num
    · split
      · exact div_nonneg (by positivity) (by positivity)
      · norm_num

theorem locationPreferenceOne_bounds (p : StudentProfile) (u : University) :
    0 ≤ locationPreferenceOne p u ∧ locationPreferenceOne p u ≤ 1 := by
  unfold locationPreferenceOne
  dsimp only
  split_ifs <;> norm_num

theorem culturalFitOne_bounds (u : University) :
    0 ≤ culturalFitOne u ∧ culturalFitOne u ≤ 1 := by
  unfold culturalFitOne
  dsimp only
  split_ifs <;> norm_num

theorem financialFitOne_bounds (p : StudentProfile) (u : University)
    (hp : WFProfile p) (hu : WFUniversity u) :
    0 ≤ financialFitOne p u ∧ financialFitOne p u ≤ 1 := by
  obtain ⟨-, -, hfin⟩ := hp
  obtain ⟨-, htuit⟩ := hu
  unfold financialFitOne
  cases hc : p.financial_constraints with
  | none => norm_num
  | some fc =>
    rw [hc] at hfin
    simp only [OptionAllP] at hfin
    have hmb : 0 < fc.max_annual_cost.getD 100000 := by
      cases hc2 : fc.max_annual_cost with
      | none => norm_num
      | some mv =>
        rw [hc2] at hfin
        simpa [OptionAllP] using hfin
    have htu : 0 ≤ tuitionOf u := by
      unfold tuitionOf
      cases hc3 : u.metadata with
      | none =>
        simp only [Option.none_bind, Option.getD_none]
        norm_num
      | some md =>
        rw [hc3] at htuit
        simp only [OptionAllP] at htuit
        simp only [Option.some_bind]
        cases hc4 : md.tuition with
        | none =>
          simp only [Option.getD_none]
          norm_num
        | some t =>
          rw [hc4] at htuit
          simp only [OptionAllP] at htuit
          simpa using htuit
    dsimp only
    refine ⟨le_min (by norm_num) ?_, min_le_left _ _⟩
    split
    next hle =>
      have hdiv1 : tuitionOf u / fc.max_annual_cost.getD 100000 ≤ 1 :=
        (div_le_one hmb).mpr hle
      nlinarith
    next hgt =>
      exact le_trans (by norm_num) (le_max_left _ _)

theorem academicFitOne_bounds (p : StudentProfile) (u : University)
    (hp : WFProfile p) (hu : WFUniversity u) :
    0 ≤ academicFitOne p u ∧ academicFitOne p u ≤ 1 := by
  obtain ⟨hgpa, htests, -⟩ := hp
  obtain ⟨hmin, -⟩ := hu
  have hg : 0 ≤ p.gpa.getD 3 := by
    cases hc : p.gpa with
    | none => norm_num
    | some g =>
      rw [hc] at hgpa
      simpa [OptionAllP] using hgpa
  have hm : 0 < (u.admission_requirements.bind AdmissionRequirements.minGPA).getD 3 := by
    cases hc : u.admission_requirements with
    | none =>
      simp only [Option.none_bind, Option.getD_none]
      norm_num
    | some ar =>
      rw [hc] at hmin
      simp only [OptionAllP] at hmin
      simp only [Option.some_bind]
      cases hc2 : ar.minGPA with
      | none =>
        simp only [Option.getD_none]
        norm_num
      | some g =>
        rw [hc2] at hmin
        simp only [OptionAllP] at hmin
        simpa using hmin
  obtain ⟨hg0, hg1⟩ := gpaSubScore_bounds (p.gpa.getD 3)
    ((u.admission_requirements.bind AdmissionRequirements.minGPA).getD 3) hg hm
  unfold academicFitOne
  dsimp only
  cases hts : p.test_scores with
  | none =>
    rw [if_pos (by norm_num : (0:ℚ) < 6/10)]
    exact div_unit_bounds _ _ (by nlinarith) (by nlinarith) (by norm_num)
  | some sts =>
    cases htr : u.admission_requirements.bind AdmissionRequirements.testScores with
    | none =>
      rw [if_pos (by norm_num : (0:ℚ) < 6/10)]
      exact div_unit_bounds _ _ (by nlinarith) (by nlinarith) (by norm_num)
    | some tr =>
      rw [hts] at htests
      simp only [OptionAllP] at htests
      obtain ⟨hsat, hgre⟩ := htests
      dsimp only
      have hsatPart : ∀ v : ℚ, satTestPart sts tr = some v → 0 ≤ v ∧ v ≤ 1 := by
        intro v hv
        unfold satTestPart at hv
        cases hss : sts.sat with
        | none => rw [hss] at hv; simp at hv
        | some s =>
          cases hrs : tr.sat with
          | none => rw [hss, hrs] at hv; simp at hv
          | some r =>
            rw [hss, hrs] at hv
            simp only [Option.some_inj] at hv
            subst hv
            apply testEntryScore_bounds
            rw [hss] at hsat
            simp only [OptionAllP] at hsat
            cases hc5 : s.total with
            | none =>
              simp only [Option.getD_none]
              norm_num
            | some t =>
              rw [hc5] at hsat
              simp only [OptionAllP] at hsat
              simpa using hsat
      have hgrePart : ∀ v : ℚ, greTestPart sts tr = some v → 0 ≤ v ∧ v ≤ 1 := by
        intro v hv
        unfold greTestPart at hv
        cases hss : sts.gre with
        | none => rw [hss] at hv; simp at hv
        | some s =>
          cases hrs : tr.gre with
          | none => rw [hss, hrs] at hv; simp at hv
          | some r =>
            rw [hss, hrs] at hv
            simp only [Option.some_inj] at hv
            subst hv
            apply testEntryScore_bounds
            rw [hss] at hgre
            simp only [OptionAllP] at hgre
            cases hc5 : s.total with
            | none =>
              simp only [Option.getD_none]
              norm_num
            | some t =>
              rw [hc5] at hgre
              simp only [OptionAllP] at hgre
              simpa using hgre
      cases hsp : satTestPart sts tr with
      | none =>
        cases hgp : greTestPart sts tr with
        | none =>
          simp only [List.reduceOption_cons_of_none, List.reduceOption_nil,
            List.length_nil, lt_irrefl, if_false]
          rw [if_pos (by norm_num : (0:ℚ) < 6/10)]
          exact div_unit_bounds _ _ (by nlinarith) (by nlinarith) (by norm_num)
        | some v2 =>
          obtain ⟨hv20, hv21⟩ := hgrePart v2 hgp
          simp only [List.reduceOption_cons_of_none, List.reduceOption_cons_of_some,
            List.reduceOption_nil, List.length_cons, List.length_nil, List.sum_cons,
            List.sum_nil]
          norm_num
          constructor <;> nlinarith
      | some v1 =>
        obtain ⟨hv10, hv11⟩ := hsatPart v1 hsp
        cases hgp : greTestPart sts tr with
        | none =>
          simp only [List.reduceOption_cons_of_none, List.reduceOption_cons_of_some,
            List.reduceOption_nil, List.length_cons, List.length_nil, List.sum_cons,
            List.sum_nil]
          norm_num
          constructor <;> nlinarith
        | some v2 =>
          obtain ⟨hv20, hv21⟩ := hgrePart v2 hgp
          simp only [List.reduceOption_cons_of_none, List.reduceOption_cons_of_some,
            List.reduceOption_nil, List.length_cons, List.length_nil, List.sum_cons,
            List.sum_nil]
          norm_num
          constructor <;> nlinarith

theorem buildMatchOne_pct_bounds (p : StudentProfile) (u : University) :
    (0 ≤ (buildMatchOne p u).match_percentage ∧
      (buildMatchOne p u).match_percentage ≤ 100) ∧
    (0 ≤ (buildMatchOne p u).confidence ∧ (buildMatchOne p u).confidence ≤ 100) := by
  unfold buildMatchOne
  dsimp only
  exact ⟨⟨le_min (by norm_num) (le_max_left 0 _), min_le_left _ _⟩,
    ⟨le_min (by norm_num) (le_max_left 0 _), min_le_left _ _⟩⟩

theorem applyFilters_subset (ms : List MatchResult) (f : Filters)
    (m : MatchResult) (hm : m ∈ applyFilters ms f) : m ∈ ms := by
  unfold applyFilters at hm
  rcases hc1 : f.categories with - | cats <;>
    rcases hc2 : f.min_match_percentage with - | mp <;>
    rcases hc3 : f.max_cost with - | mc <;>
    rw [hc1, hc2, hc3] at hm <;>
    simp only [List.mem_filter] at hm <;>
    tauto

theorem mem_findMatches (p : StudentProfile) (maxResults : ℕ)
    (filters : Option Filters) (unis : List University) (m : MatchResult)
    (hm : m ∈ findMatches p maxResults filters unis) : m ∈ buildMatches p unis := by
  unfold findMatches at hm
  have h1 : m ∈ (findMatchesRanked p filters unis).map Prod.snd :=
    List.take_subset _ _ hm
  have hperm : ((findMatchesRanked p filters unis).map Prod.snd).Perm
      (match filters with
        | some f => applyFilters (buildMatches p unis) f
        | none => buildMatches p unis) := by
    unfold findMatchesRanked
    cases filters with
    | none =>
      exact ((List.perm_insertionSort _ _).map Prod.snd).trans
        (by rw [List.enum_map_snd])
    | some f =>
      exact ((List.perm_insertionSort _ _).map Prod.snd).trans
        (by rw [List.enum_map_snd])
  have h2 := hperm.mem_iff.mp h1
  cases filters with
  | none => exact h2
  | some f => exact applyFilters_subset _ f m h2

/-- C1: every per-candidate factor score computed during `find_matches` lies
in [0,1], and every returned match has `match_percentage` and `confidence`
in [0,100]. Well-formedness asks only that supplied numeric inputs respect
their documented domains (GPA and test totals nonnegative, supplied minimum
GPA and budget positive, tuition nonnegative); the clamping of the
percentage and confidence holds for the output unconditionally. -/
theorem factor_scores_and_percentages_bounded (p : StudentProfile)
    (unis : List University) (maxResults : ℕ) (filters : Option Filters)
    (hp : WFProfile p) (hu : ∀ u ∈ unis, WFUniversity u) :
    (∀ s ∈ calculateAcademicFit p unis, 0 ≤ s ∧ s ≤ 1) ∧
    (∀ s ∈ calculateInterestAlignment p unis, 0 ≤ s ∧ s ≤ 1) ∧
    (∀ s ∈ calculateLocationPreference p unis, 0 ≤ s ∧ s ≤ 1) ∧
    (∀ s ∈ calculateFinancialFit p unis, 0 ≤ s ∧ s ≤ 1) ∧
    (∀ s ∈ calculateCulturalFit p unis, 0 ≤ s ∧ s ≤ 1) ∧
    (∀ m ∈ findMatches p maxResults filters unis,
      (0 ≤ m.match_percentage ∧ m.match_percentage ≤ 100) ∧
      (0 ≤ m.confidence ∧ m.confidence ≤ 100)) := by
  refine ⟨?_, ?_, ?_, ?_, ?_, ?_⟩
  · intro s hs
    obtain ⟨u, hu2, rfl⟩ := List.mem_map.mp hs
    exact academicFitOne_bounds p u hp (hu u hu2)
  · intro s hs
    obtain ⟨u, hu2, rfl⟩ := List.mem_map.mp hs
    exact interestAlignmentOne_bounds p u
  · intro s hs
    obtain ⟨u, hu2, rfl⟩ := List.mem_map.mp hs
    exact locationPreferenceOne_bounds p u
  · intro s hs
    obtain ⟨u, hu2, rfl⟩ := List.mem_map.mp hs
    exact financialFitOne_bounds p u hp (hu u hu2)
  · intro s hs
    obtain ⟨u, hu2, rfl⟩ := List.mem_map.mp hs
    exact culturalFitOne_bounds u
  · intro m hm
    have hmem := mem_findMatches p maxResults filters unis m hm
    obtain ⟨u, hu2, rfl⟩ := List.mem_map.mp hmem
    exact buildMatchOne_pct_bounds p u

/-- C1 witness: the example profile and catalog, with the match record of
the single candidate evaluated concretely. -/
theorem factor_scores_and_percentages_bounded_witness :
    (0 ≤ (buildMatchOne pEx uEx).match_percentage ∧
      (buildMatchOne pEx uEx).match_percentage ≤ 100) ∧
    (0 ≤ (buildMatchOne pEx uEx).confidence ∧
      (buildMatchOne pEx uEx).confidence ≤ 100) :=
  (factor_scores_and_percentages_bounded pEx [uEx] 20 none
      ⟨trivial, trivial, trivial⟩
      (fun u hu => by
        rw [List.mem_singleton] at hu
        subst hu
        exact ⟨trivial, trivial⟩)).2.2.2.2.2
    (buildMatchOne pEx uEx)
    (by
      have : findMatches pEx 20 none [uEx] = [buildMatchOne pEx uEx] := by rfl
      rw [this]
      exact List.mem_singleton.mpr rfl)

/-- C2: output shape of `find_matches`: at most `max_results` entries, and
the entries descend by match percentage. Stability is stated on the ranked
list tagged with original positions: among tied percentages the original
positions ascend, the truncated output is exactly the tagged ranking with
tags dropped, and the ranked list is a permutation of the position-tagged
filtered matches. Together these say the output is the stable descending
sort of the filtered matches, truncated, which is the documented behaviour
of `list.sort(key=..., reverse=True)` followed by `[:max_results]`. -/
theorem find_matches_sorted_stable_bounded (p : StudentProfile)
    (maxResults : ℕ) (filters : Option Filters) (unis : List University) :
    (findMatches p maxResults filters unis).length ≤ maxResults ∧
    (findMatches p maxResults filters unis).Pairwise
      (fun a b => b.match_percentage ≤ a.match_percentage) ∧
    ((findMatchesRanked p filters unis).take maxResults).Pairwise
      (fun a b => a.2.match_percentage = b.2.match_percentage → a.1 ≤ b.1) ∧
    findMatches p maxResults filters unis =
      ((findMatchesRanked p filters unis).take maxResults).map Prod.snd ∧
    (findMatchesRanked p filters unis).Perm
      (match filters with
        | some f => (applyFilters (buildMatches p unis) f).enum
        | none => (buildMatches p unis).enum) := by
  have hsorted : (findMatchesRanked p filters unis).Pairwise pctIdxRel := by
    unfold findMatchesRanked
    exact List.sorted_insertionSort pctIdxRel _
  refine ⟨?_, ?_, ?_, ?_, ?_⟩
  · exact List.length_take_le _ _
  · have h1 : (findMatchesRanked p filters unis).Pairwise
        (fun a b : ℕ × MatchResult => b.2.match_percentage ≤ a.2.match_percentage) := by
      refine hsorted.imp ?_
      intro a b hab
      rcases hab with h | ⟨h, _⟩
      · exact le_of_lt h
      · exact le_of_eq h.symm
    have h2 : ((findMatchesRanked p filters unis).map Prod.snd).Pairwise
        (fun a b : MatchResult => b.match_percentage ≤ a.match_percentage) :=
      List.pairwise_map.mpr h1
    exact h2.sublist (List.take_sublist _ _)
  · refine (hsorted.imp ?_).sublist (List.take_sublist _ _)
    intro a b hab
    rcases hab with h | ⟨h, hle⟩
    · intro he
      rw [he] at h
      exact absurd h (lt_irrefl _)
    · intro _
      exact hle
  · unfold findMatches
    exact (List.map_take Prod.snd _ _).symm
  · unfold findMatchesRanked
    cases filters with
    | none => exact List.perm_insertionSort _ _
    | some f => exact List.perm_insertionSort _ _

/-- C7 witness: a two-candidate index queried at "u1" with limit 5. -/
theorem get_similar_excludes_query_and_bounded_witness :
    (getSimilarUniversities [uEx, uBx] (fun _ j => (j : ℚ)) "u1" 5).isSome = true ∧
    ((getSimilarUniversities [uEx, uBx] (fun _ j => (j : ℚ)) "u1" 5).getD
      []).length ≤ 5 :=
  ⟨(get_similar_excludes_query_and_bounded [uEx, uBx] (fun _ j => (j : ℚ)) "u1" 5
      (by decide) (by decide)).1,
   (get_similar_excludes_query_and_bounded [uEx, uBx] (fun _ j => (j : ℚ)) "u1" 5
      (by decide) (by decide)).2.2.1⟩

end StellarRec
